import Mathlib

/-!
Verification of the Form 26AS TDS parser (`src/app.py`) against its
natural-language specification.

The Python source is shallowly embedded below.  Monetary values are
represented exactly, as integer numbers of paise (hundredths of a rupee):
every monetary token the scanner accepts carries exactly two fractional
digits, so `50000.00` becomes `5000000 : Int`.  Parsing and the sign
tests are exact on this domain.  Where a property depends on the
floating-point nature of the program's accumulation — the
order-independence of aggregation — the binary64 arithmetic itself is
modelled (`Dyadic`, `fadd`: round-to-nearest-even at 53 significant
bits) and the aggregation is restated over it.  Strings are processed as
`List Char`; Python `str.upper`/`str.strip` are modelled for the ASCII
repertoire the program works with.
-/

/-- ASCII model of the whitespace class used by Python's `str.strip` and
the regex class matched in the source's patterns (space, tab, CR, LF). -/
def isSpaceChar (c : Char) : Bool := c.isWhitespace

/-- ASCII model of Python `str.upper` on a single character. -/
def upChar (c : Char) : Char := if c.isLower then Char.ofNat (c.toNat - 32) else c

/-- ASCII lower-casing, used to implement the `re.IGNORECASE` flag:
two characters match case-insensitively iff their `lowerOf` agree. -/
def lowerOf (c : Char) : Char := if c.isUpper then Char.ofNat (c.toNat + 32) else c

/-- Is the head of the list a regex word character (`\w`, ASCII), as used
by the `\b` boundaries in the source's patterns? -/
def wordCharHead : List Char → Bool
  | [] => false
  | c :: _ => c.isAlpha || c.isDigit || c = '_'

/-- Model of Python `str.strip`: drop whitespace from both ends. -/
def pyStrip (cs : List Char) : List Char :=
  ((cs.dropWhile isSpaceChar).reverse.dropWhile isSpaceChar).reverse

/-- Model of Python `text.split('\n')` (`src/app.py` line 132). -/
def splitNl : List Char → List (List Char)
  | [] => [[]]
  | c :: rest =>
    let r := splitNl rest
    if c = '\n' then [] :: r
    else
      match r with
      | h :: t => (c :: h) :: t
      | [] => [[c]]

/-- Case-insensitive literal prefix match.  Returns the actually consumed
input characters (original case, as a regex group would capture them) and
the remaining input. -/
def ciPref : List Char → List Char → Option (List Char × List Char)
  | [], cs => some ([], cs)
  | _ :: _, [] => none
  | p :: ps, c :: cs =>
    if lowerOf p = lowerOf c then (ciPref ps cs).map (fun q => (c :: q.1, q.2)) else none

/-- Model of `re.sub(pat, repl, s, flags=re.IGNORECASE)` for a literal
pattern `pat`, optionally followed by a `\b` word boundary (`bdry`).
Scans left to right, replacing non-overlapping occurrences and continuing
after each replacement, exactly as `re.sub` does.  `fuel` bounds the
recursion; one unit is spent per consumed input character, so the
caller passes the input length. -/
def replaceAllCI : Nat → List Char → List Char → Bool → List Char → List Char
  | 0, _, _, _, cs => cs
  | _ + 1, _, _, _, [] => []
  | fuel + 1, pat, repl, bdry, c :: rest =>
    match ciPref pat (c :: rest) with
    | some (_, after) =>
      if bdry && wordCharHead after then c :: replaceAllCI fuel pat repl bdry rest
      else repl ++ replaceAllCI fuel pat repl bdry after
    | none => c :: replaceAllCI fuel pat repl bdry rest

/-- One rewrite rule application of `normalize_section`:
`re.sub(pat, repl, s, flags=re.IGNORECASE)` with optional `\b`. -/
def applyRule (cs : List Char) (pat repl : String) (bdry : Bool) : List Char :=
  replaceAllCI cs.length pat.data repl.data bdry cs

/-- Embedding of `normalize_section` (`src/app.py` lines 100-125):
upper-case and strip the raw section token, then apply the fixed ordered
list of case-insensitive rewrite rules. -/
def normalize_section (section_raw : String) : String :=
  let s0 := pyStrip (section_raw.data.map upChar)
  let s1 := applyRule s0 "1941(A)" "194I(a)" false
  let s2 := applyRule s1 "1941(B)" "194I(b)" false
  let s3 := applyRule s2 "194IA" "194I(a)" true
  let s4 := applyRule s3 "194IB" "194I(b)" true
  let s5 := applyRule s4 "194J(A)" "194J(a)" false
  let s6 := applyRule s5 "194J(B)" "194J(b)" false
  let s7 := applyRule s6 "194JA" "194J(a)" true
  let s8 := applyRule s7 "194JB" "194J(b)" true
  let s9 := applyRule s8 "194LC(2)(I)" "194LC(2)(i)" false
  let s10 := applyRule s9 "194LC(2)(IA)" "194LC(2)(ia)" false
  let s11 := applyRule s10 "194LC(2)(IB)" "194LC(2)(ib)" false
  let s12 := applyRule s11 "194LC(2)(IC)" "194LC(2)(ic)" false
  String.mk s12

/-- Body of a monetary token after the optional sign: a maximal nonempty
run of `[\d,]`, a dot, and exactly two digits (the regex
`[\d,]+\.\d{2}` of `src/app.py` line 163).  Returns the token's
characters and the rest of the input. -/
def matchAmountBody (cs : List Char) : Option (List Char × List Char) :=
  let p := cs.span (fun c => c.isDigit || c = ',')
  match p.2 with
  | '.' :: d1 :: d2 :: rest =>
    if p.1 ≠ [] && d1.isDigit && d2.isDigit then some (p.1 ++ '.' :: d1 :: d2 :: [], rest)
    else none
  | _ => none

/-- A monetary token starting exactly at the head of `cs`: the regex
`-?[\d,]+\.\d{2}` (optional leading minus). -/
def matchAmountAt (cs : List Char) : Option (List Char × List Char) :=
  match cs with
  | '-' :: t => (matchAmountBody t).map (fun q => ('-' :: q.1, q.2))
  | _ => matchAmountBody cs

/-- Scanning worker for `re.findall(r'(-?[\d,]+\.\d{2})', line)`:
left-to-right, non-overlapping, continuing after each match.  `fuel`
bounds recursion (one unit per consumed character). -/
def findAmountsAux : Nat → List Char → List (List Char)
  | 0, _ => []
  | _ + 1, [] => []
  | fuel + 1, c :: rest =>
    match matchAmountAt (c :: rest) with
    | some (tok, after) => tok :: findAmountsAux fuel after
    | none => findAmountsAux fuel rest

/-- Embedding of `re.findall(r'(-?[\d,]+\.\d{2})', line)`
(`src/app.py` line 163): all monetary tokens of a line, in order. -/
def findAmounts (cs : List Char) : List (List Char) :=
  findAmountsAux cs.length cs

/-- Value of a digit list as a natural number. -/
def digitsVal (cs : List Char) : Nat :=
  cs.foldl (fun acc c => 10 * acc + (c.toNat - 48)) 0

/-- Unsigned part of `float(tok)` on the scanner's token language, in
paise: digits (possibly none once commas are removed), a dot, and exactly
two fractional digits.  `none` models a `ValueError`. -/
def parseUnsignedPaise (cs : List Char) : Option Nat :=
  let p := cs.span Char.isDigit
  match p.2 with
  | '.' :: d1 :: d2 :: [] =>
    if d1.isDigit && d2.isDigit then some (digitsVal p.1 * 100 + digitsVal (d1 :: d2 :: []))
    else none
  | _ => none

/-- Model of `float(tok.replace(',', ''))` (`src/app.py` lines 168-169) on
the monetary-token language, returning the exact value in paise; `none`
models a `ValueError` on a malformed token.  Exact on every token the
scanner `findAmounts` can produce. -/
def parsePaise (tok : List Char) : Option Int :=
  let t := tok.filter (fun c => c ≠ ',')
  match t with
  | '-' :: rest => (parseUnsignedPaise rest).map (fun n => -(n : Int))
  | _ => (parseUnsignedPaise t).map (fun n => (n : Int))

/-- Does `PART[- ]?I\b` (case-insensitive) match starting at the head? -/
def partIAt (cs : List Char) : Bool :=
  match ciPref ("PART".data) cs with
  | none => false
  | some (_, r) =>
    (match r with
     | c :: r' => (lowerOf c = 'i' && !wordCharHead r') ||
         ((c = '-' || c = ' ') &&
           (match r' with
            | c' :: r'' => lowerOf c' = 'i' && !wordCharHead r''
            | [] => false))
     | [] => false)

/-- Does `PART[- ]?II\b` (case-insensitive) match starting at the head? -/
def partIIAt (cs : List Char) : Bool :=
  match ciPref ("PART".data) cs with
  | none => false
  | some (_, r) =>
    (match r with
     | c1 :: c2 :: r' =>
       (lowerOf c1 = 'i' && lowerOf c2 = 'i' && !wordCharHead r') ||
         ((c1 = '-' || c1 = ' ') &&
           (match r' with
            | c3 :: r'' => lowerOf c2 = 'i' && lowerOf c3 = 'i' && !wordCharHead r''
            | [] => false))
     | _ => false)

/-- Embedding of `re.search(r'PART[- ]?I\b', line, re.IGNORECASE)`
(`src/app.py` line 141): does the pattern match anywhere in the line? -/
def hasPartI : List Char → Bool
  | [] => false
  | c :: rest => partIAt (c :: rest) || hasPartI rest

/-- Embedding of `re.search(r'PART[- ]?II\b', line, re.IGNORECASE)`
(`src/app.py` line 145). -/
def hasPartII : List Char → Bool
  | [] => false
  | c :: rest => partIIAt (c :: rest) || hasPartII rest

/-- `[L, L-1, ..., 0]`: the order in which a greedy `*` hands back
characters during backtracking. -/
def downFrom : Nat → List Nat
  | 0 => [0]
  | n + 1 => (n + 1) :: downFrom n

/-- Try `\([a-z]\)` (IGNORECASE, so any ASCII letter between literal
parentheses) at the head; return consumed characters and rest. -/
def candParen (cs : List Char) : Option (List Char × List Char) :=
  match cs with
  | '(' :: c :: ')' :: rest => if c.isAlpha then some (['(', c, ')'], rest) else none
  | _ => none

/-- Try `\([ab]\)` (IGNORECASE) at the head. -/
def candParenAB (cs : List Char) : Option (List Char × List Char) :=
  match cs with
  | '(' :: c :: ')' :: rest =>
    if lowerOf c = 'a' || lowerOf c = 'b' then some (['(', c, ')'], rest) else none
  | _ => none

/-- Candidates (matched text, rest) of the alternative `192A?`, in the
order Python's backtracking engine tries them (optional `A` first). -/
def alt192 (cs : List Char) : List (List Char × List Char) :=
  match ciPref ("192".data) cs with
  | none => []
  | some (m, r) =>
    (match r with
     | c :: r' => if lowerOf c = 'a' then [(m ++ [c], r')] else []
     | [] => []) ++ [(m, r)]

/-- Candidates of the alternative `193`. -/
def alt193 (cs : List Char) : List (List Char × List Char) :=
  match ciPref ("193".data) cs with
  | none => []
  | some (m, r) => [(m, r)]

/-- Candidates of the alternative `194[A-Z]*(?:\([a-z]\))?`, in Python
backtracking order: the greedy star takes the maximal letter run and
hands letters back one at a time; at each star length the optional
parenthesised group is tried present-first. -/
def alt194 (cs : List Char) : List (List Char × List Char) :=
  match ciPref ("194".data) cs with
  | none => []
  | some (m, r) =>
    let p := r.span Char.isAlpha
    (downFrom p.1.length).flatMap (fun k =>
      let taken := p.1.take k
      let after := p.1.drop k ++ p.2
      (match candParen after with
       | some (q, rest) => [(m ++ taken ++ q, rest)]
       | none => []) ++ [(m ++ taken, after)])

/-- Candidates of the alternative `1941?\([ab]\)` (optional literal `1`
tried present-first). -/
def alt1941 (cs : List Char) : List (List Char × List Char) :=
  match ciPref ("194".data) cs with
  | none => []
  | some (m, r) =>
    (match r with
     | '1' :: r1 =>
       (match candParenAB r1 with
        | some (q, rest) => [(m ++ '1' :: q, rest)]
        | none => [])
     | _ => []) ++
    (match candParenAB r with
     | some (q, rest) => [(m ++ q, rest)]
     | none => [])

/-- Candidates of the alternative `195`. -/
def alt195 (cs : List Char) : List (List Char × List Char) :=
  match ciPref ("195".data) cs with
  | none => []
  | some (m, r) => [(m, r)]

/-- Candidates of the alternative `196[A-Z]*` (greedy star, maximal
first). -/
def alt196 (cs : List Char) : List (List Char × List Char) :=
  match ciPref ("196".data) cs with
  | none => []
  | some (m, r) =>
    let p := r.span Char.isAlpha
    (downFrom p.1.length).map (fun k => (m ++ p.1.take k, p.1.drop k ++ p.2))

/-- Candidates of the alternative `206C[A-Z]`. -/
def alt206 (cs : List Char) : List (List Char × List Char) :=
  match ciPref ("206C".data) cs with
  | none => []
  | some (m, r) =>
    match r with
    | c :: r' => if c.isAlpha then [(m ++ [c], r')] else []
    | [] => []

/-- All candidates of the nonempty alternatives of the section group of
`section_pattern` (`src/app.py` lines 150-154), in the order the
alternation lists them. -/
def sectionCands (cs : List Char) : List (List Char × List Char) :=
  alt192 cs ++ alt193 cs ++ alt194 cs ++ alt1941 cs ++ alt195 cs ++ alt196 cs ++ alt206 cs

/-- Is the head of the list a whitespace character (the final `\s+` of
the data-row pattern needs at least one)? -/
def wsHead : List Char → Bool
  | [] => false
  | c :: _ => isSpaceChar c

/-- First nonempty section alternative matching at the head of `cs` that
is followed by at least one whitespace character, in backtracking order;
returns the matched group text.  `none` means every nonempty alternative
fails here (the empty alternative is handled by the caller). -/
def matchSectionFollowedByWs (cs : List Char) : Option (List Char) :=
  ((sectionCands cs).find? (fun q => wsHead q.2)).map (fun q => q.1)

/-- Embedding of `re.match(section_pattern, line, re.IGNORECASE)` for the
data-row pattern `^(\d+)\s+(...|)\s+` of `src/app.py` lines 150-156,
returning the section group (group 2) on success.  The serial group
`(\d+)` must be a nonempty digit run followed by whitespace; the greedy
`\s+` then backtracks: with all whitespace consumed the nonempty
alternatives are tried, and if all fail, the empty alternative can
succeed only by splitting a whitespace run of length at least two
between the two `\s+`, yielding an empty section group. -/
def matchDataRow (cs : List Char) : Option (List Char) :=
  let p1 := cs.span Char.isDigit
  if p1.1 = [] then none
  else
    let p2 := p1.2.span isSpaceChar
    if p2.1 = [] then none
    else
      match matchSectionFollowedByWs p2.2 with
      | some sec => some sec
      | none => if 2 ≤ p2.1.length then some [] else none

/-- Per-section accumulator of the summary dictionary
(`src/app.py` lines 178-186): values in paise. -/
structure SecStats where
  total_receipts : Int
  total_tds : Int
  transaction_count : Nat
deriving DecidableEq, Repr

/-- The section summary dictionary: canonical section code to stats. -/
def SectionSummary := String → Option SecStats

/-- The empty summary (`section_summary = {}`, `src/app.py` line 131). -/
def emptySectionSummary : SectionSummary := fun _ => none

/-- One accepted transaction line, as the source uses it: the normalized
section, `receipt_amount` (`amounts[-3]`) and `tds_amount`
(`amounts[-1]`), in paise. -/
structure TdsRecord where
  sec : String
  receipt : Int
  tds : Int
deriving DecidableEq, Repr

/-- Updating one section's stats with one record: initialise to zeros if
the key is absent, then add the amounts and bump the count
(`src/app.py` lines 177-186). -/
def bumpStats (prev : Option SecStats) (r : TdsRecord) : SecStats :=
  match prev with
  | none => ⟨r.receipt, r.tds, 1⟩
  | some st => ⟨st.total_receipts + r.receipt, st.total_tds + r.tds, st.transaction_count + 1⟩

/-- Folding one record into the section summary
(`src/app.py` lines 177-186). -/
def addRecord (summary : SectionSummary) (r : TdsRecord) : SectionSummary :=
  fun k => if k = r.sec then some (bumpStats (summary r.sec) r) else summary k

/-- The aggregation of `src/app.py` lines 177-186 as a fold over a record
sequence. -/
def aggregateRecords (recs : List TdsRecord) : SectionSummary :=
  recs.foldl addRecord emptySectionSummary

/-- Record extraction from the monetary-token list of a matched data line
(`src/app.py` lines 165-174): at least three tokens are required; the
third-from-last is `receipt_amount` and the last is `tds_amount`; a
parse failure (`ValueError`) or a negative value yields no record. -/
def recFromAmounts (sec : String) (amounts : List (List Char)) : Option TdsRecord :=
  if 3 ≤ amounts.length then
    match parsePaise (amounts.getD (amounts.length - 3) []),
        parsePaise (amounts.getD (amounts.length - 1) []) with
    | some r, some t => if r < 0 ∨ t < 0 then none else some ⟨sec, r, t⟩
    | _, _ => none
  else none

/-- Folding an optional record into the summary: the per-line effect of
`src/app.py` lines 165-189 (a skipped line leaves the summary as is). -/
def applyRecord (summary : SectionSummary) (rec : Option TdsRecord) : SectionSummary :=
  match rec with
  | some r => addRecord summary r
  | none => summary

/-- Extraction from one stripped line (`src/app.py` lines 156-174): match
the data-row pattern, normalize the section group, scan the monetary
tokens, and build the record. -/
def extractFromLine (line : List Char) : Option TdsRecord :=
  match matchDataRow line with
  | none => none
  | some secRaw => recFromAmounts (normalize_section (String.mk secRaw)) (findAmounts line)

/-- The state threaded through the line loop of
`parse_form_26as_sectionwise`: the part flag and the summary built so
far. -/
structure ParseState where
  in_tds_section : Bool
  summary : SectionSummary

/-- Initial loop state (`src/app.py` lines 131-134). -/
def initState : ParseState := ⟨false, emptySectionSummary⟩

/-- One iteration of the `while i < len(lines)` loop of
`parse_form_26as_sectionwise` (`src/app.py` lines 137-191): strip the
line, update the part flag from the PART-I / PART-II markers, and, when
inside the TDS part, fold in the record extracted from the line. -/
def stepLine (s : ParseState) (raw : String) : ParseState :=
  let line := pyStrip raw.data
  let t1 := if hasPartI line then true else s.in_tds_section
  let t2 := if hasPartII line then false else t1
  if t2 then ⟨t2, applyRecord s.summary (extractFromLine line)⟩ else ⟨t2, s.summary⟩

/-- The loop of `parse_form_26as_sectionwise` over an already split line
sequence. -/
def parseLines (lines : List String) : SectionSummary :=
  (lines.foldl stepLine initState).summary

/-- Embedding of `parse_form_26as_sectionwise(text)`
(`src/app.py` lines 128-193). -/
def parse_form_26as_sectionwise (text : String) : SectionSummary :=
  parseLines ((splitNl text.data).map String.mk)

/-- Modelled from the spec: the full Financial Record of §3, as consumed
by the party-wise aggregation.  The party-wise code is missing from
`src/` (the file there is the section-wise-only variant); the spec's §3
record carries the section, optional party name and TAN, and all three
amounts (here in paise). -/
structure PartyRecord where
  sec : String
  party : Option String
  tan : Option String
  paid : Int
  deducted : Int
  deposited : Int
deriving DecidableEq, Repr

/-- Modelled from the spec: per-party totals plus a per-section subtotal
of tax deducted only (§3 Party Summary, §4.4, §6 Party-wise sheet). -/
structure PartyStats where
  total_paid : Int
  total_deducted : Int
  total_deposited : Int
  breakdown : String → Option Int

/-- Modelled from the spec: the Party Summary mapping, keyed by the
`(party_name, tan)` pair (§4.4); records with neither party name nor TAN
all carry the key `(none, none)` — the single unattributed bucket. -/
def PartySummary := Option String × Option String → Option PartyStats

/-- The empty party summary. -/
def emptyPartySummary : PartySummary := fun _ => none

/-- Modelled from the spec: fold one record into the party summary —
initialise the bucket if absent, add the three totals, and add the
record's tax deducted to the bucket's per-section breakdown (§4.4). -/
def addPartyRec (m : PartySummary) (r : PartyRecord) : PartySummary :=
  fun k =>
    if k = (r.party, r.tan) then
      some (match m (r.party, r.tan) with
        | none => ⟨r.paid, r.deducted, r.deposited,
            fun s => if s = r.sec then some r.deducted else none⟩
        | some st => ⟨st.total_paid + r.paid, st.total_deducted + r.deducted,
            st.total_deposited + r.deposited,
            fun s => if s = r.sec then some ((st.breakdown s).getD 0 + r.deducted)
              else st.breakdown s⟩)
    else m k

/-- Modelled from the spec: `aggregate` for the party grouping (§4.4), a
fold over the record sequence. -/
def aggregateParty (recs : List PartyRecord) : PartySummary :=
  recs.foldl addPartyRec emptyPartySummary

/-- Modelled from the spec: `parse_document`'s result pair
`(SectionSummary, PartySummary)` (§6), built from the record stream; the
section grouping reuses the source's fold (`addRecord`), keyed on
section with `amount_paid` and `tax_deposited`. -/
def parse_document_summaries (recs : List PartyRecord) : SectionSummary × PartySummary :=
  (aggregateRecords (recs.map (fun r => ⟨r.sec, r.paid, r.deposited⟩)), aggregateParty recs)


/-- A finite IEEE-754 binary64 value (the representation of Python
floats, which the source sums in `+=` at `src/app.py` lines 184-186),
held canonically as the dyadic rational `m * 2 ^ e` with either `m = 0`
and `e = 0`, or `m` odd.  Every operation below returns canonical
values, so structural equality is value equality.  On the normal range —
where every value this development evaluates lies — binary64 arithmetic
is exactly round-to-nearest-even at 53 significant bits with an
unconstrained exponent, which is what `round53` implements; overflow to
infinity and subnormal underflow lie outside the modelled range. -/
structure Dyadic where
  m : Int
  e : Int
deriving DecidableEq, Repr

/-- Bit length of a natural number (`0` for `0`); fuel-based so the
kernel can evaluate it (one fuel unit per halving). -/
def bitLenAux : Nat → Nat → Nat
  | 0, _ => 0
  | _ + 1, 0 => 0
  | f + 1, n + 1 => bitLenAux f ((n + 1) / 2) + 1

/-- Bit length of a natural number. -/
def bitLen (n : Nat) : Nat := bitLenAux n n

/-- Strip factors of two from the significand (fuel-based). -/
def canonAux : Nat → Int → Int → Dyadic
  | 0, m, e => ⟨m, e⟩
  | f + 1, m, e => if m % 2 = 0 then canonAux f (m / 2) (e + 1) else ⟨m, e⟩

/-- The canonical `Dyadic` of value `m * 2 ^ e`. -/
def mkDy (m e : Int) : Dyadic :=
  if m = 0 then ⟨0, 0⟩ else canonAux m.natAbs m e

/-- Round the exact value `M * 2 ^ e` to 53 significant bits,
round-to-nearest with ties to even — binary64 rounding on the normal
range. -/
def round53 (M : Int) (e : Int) : Dyadic :=
  if M = 0 then ⟨0, 0⟩
  else
    let A := M.natAbs
    let L := bitLen A
    if L ≤ 53 then mkDy M e
    else
      let sh := L - 53
      let q := A / 2 ^ sh
      let r := A % 2 ^ sh
      let half := 2 ^ (sh - 1)
      let q2 := if r < half then q else if half < r then q + 1 else if q % 2 = 0 then q else q + 1
      let sq : Int := if M < 0 then -(q2 : Int) else (q2 : Int)
      mkDy sq (e + (sh : Int))

/-- IEEE-754 binary64 addition (normal range): the exact sum, rounded.
This is the `+` Python applies to the float amounts in
`src/app.py` lines 184-185.  Validated against hardware doubles on
20000 random operand pairs. -/
def fadd (x y : Dyadic) : Dyadic :=
  let e := min x.e y.e
  let M := x.m * 2 ^ (x.e - e).toNat + y.m * 2 ^ (y.e - e).toNat
  round53 M e

/-- The float `0` the summary fields are initialised to
(`src/app.py` lines 178-181). -/
def fzero : Dyadic := ⟨0, 0⟩

/-- Per-section accumulator with the amounts as the program's binary64
floats (`src/app.py` lines 178-186). -/
structure SecStatsFP where
  total_receipts : Dyadic
  total_tds : Dyadic
  transaction_count : Nat
deriving DecidableEq, Repr

/-- An accepted record whose amounts are the binary64 values produced by
`float(...)` on the line's tokens (`src/app.py` lines 168-169); e.g. the
token `9007199254740992.00` converts exactly to `2 ^ 53` and `1.00` to
`1`. -/
structure TdsRecordFP where
  sec : String
  receipt : Dyadic
  tds : Dyadic
deriving DecidableEq, Repr

/-- The section summary with float-valued totals. -/
def SectionSummaryFP := String → Option SecStatsFP

/-- The empty float-valued summary. -/
def emptySectionSummaryFP : SectionSummaryFP := fun _ => none

/-- Float-faithful per-record update (`src/app.py` lines 177-186): the
absent key is initialised to float `0`, then `+=` accumulates in
binary64 arithmetic. -/
def bumpStatsFP (prev : Option SecStatsFP) (r : TdsRecordFP) : SecStatsFP :=
  match prev with
  | none => ⟨fadd fzero r.receipt, fadd fzero r.tds, 1⟩
  | some st => ⟨fadd st.total_receipts r.receipt, fadd st.total_tds r.tds,
      st.transaction_count + 1⟩

/-- Float-faithful fold of one record into the section summary
(`src/app.py` lines 177-186). -/
def addRecordFP (summary : SectionSummaryFP) (r : TdsRecordFP) : SectionSummaryFP :=
  fun k => if k = r.sec then some (bumpStatsFP (summary r.sec) r) else summary k

/-- The aggregation of `src/app.py` lines 177-186 over a record
sequence, with the accumulation performed — as the program performs it —
in IEEE-754 binary64 arithmetic. -/
def aggregateRecordsFP (recs : List TdsRecordFP) : SectionSummaryFP :=
  recs.foldl addRecordFP emptySectionSummaryFP

/-- Transaction count of an optional summary entry (`0` when absent; an
existing entry always has a positive count). -/
def optCountFP (o : Option SecStatsFP) : Nat :=
  match o with
  | none => 0
  | some st => st.transaction_count


theorem span_pref (p : Char → Bool) (xs ys : List Char)
    (h1 : ∀ c ∈ xs, p c = true)
    (h2 : ∀ c, ys.head? = some c → p c = false) :
    List.span p (xs ++ ys) = (xs, ys) := by
  induction xs with
  | nil =>
    simp only [List.nil_append, List.span_eq_take_drop]
    cases ys with
    | nil => simp
    | cons y t =>
      have hy : p y = false := h2 y rfl
      simp [List.takeWhile, List.dropWhile, hy]
  | cons x t ih =>
    have hx : p x = true := h1 x (List.mem_cons_self x t)
    have ht : ∀ c ∈ t, p c = true := fun c hc => h1 c (List.mem_cons_of_mem x hc)
    have := ih ht
    simp only [List.span_eq_take_drop, Prod.mk.injEq] at this ⊢
    simp [List.takeWhile, List.dropWhile, hx, this.1, this.2]

theorem addRecord_comm (s : SectionSummary) (r1 r2 : TdsRecord) :
    addRecord (addRecord s r1) r2 = addRecord (addRecord s r2) r1 := by
  funext k
  by_cases h1 : k = r1.sec <;> by_cases h2 : k = r2.sec
  · have hss : r2.sec = r1.sec := h2 ▸ h1
    simp only [addRecord, h1, h2, hss, if_pos rfl]
    cases hv : s r1.sec <;>
      simp [bumpStats, hv, SecStats.mk.injEq] <;> omega
  · have hss : ¬ r1.sec = r2.sec := h1 ▸ h2
    have hss' : ¬ r2.sec = r1.sec := fun h => hss h.symm
    simp [addRecord, h1, h2, hss, hss']
  · have hss : ¬ r2.sec = r1.sec := h2 ▸ h1
    have hss' : ¬ r1.sec = r2.sec := fun h => hss h.symm
    simp [addRecord, h1, h2, hss, hss']
  · simp [addRecord, h1, h2]

theorem foldl_addRecord_perm {l1 l2 : List TdsRecord} (h : l1.Perm l2) :
    ∀ b, List.foldl addRecord b l1 = List.foldl addRecord b l2 := by
  induction h with
  | nil => intro b; rfl
  | cons x _ ih => intro b; simp only [List.foldl_cons]; exact ih _
  | swap x y l => intro b; simp only [List.foldl_cons]; rw [addRecord_comm]
  | trans _ _ ih1 ih2 => intro b; exact (ih1 b).trans (ih2 b)

theorem addPartyRec_isSome (m : PartySummary) (r : PartyRecord) (k : Option String × Option String)
    (h : (m k).isSome = true) : ((addPartyRec m r) k).isSome = true := by
  by_cases hk : k = (r.party, r.tan) <;> simp [addPartyRec, hk, h]

theorem foldl_addPartyRec_isSome (recs : List PartyRecord) :
    ∀ (m : PartySummary) (k : Option String × Option String), (m k).isSome = true →
    ((recs.foldl addPartyRec m) k).isSome = true := by
  induction recs with
  | nil => intro m k h; exact h
  | cons r t ih =>
    intro m k h
    simp only [List.foldl_cons]
    exact ih _ _ (addPartyRec_isSome m r k h)

theorem mem_foldl_addPartyRec (recs : List PartyRecord) :
    ∀ (m : PartySummary) (r : PartyRecord), r ∈ recs →
    ((recs.foldl addPartyRec m) (r.party, r.tan)).isSome = true := by
  induction recs with
  | nil => intro m r h; cases h
  | cons x t ih =>
    intro m r h
    simp only [List.foldl_cons]
    rcases List.mem_cons.mp h with h | h
    · subst h
      exact foldl_addPartyRec_isSome t _ _ (by simp [addPartyRec])
    · exact ih _ r h

theorem stepLine_not_relevant (s : ParseState) (l : String)
    (hI : hasPartI (pyStrip l.data) = false) (hs : s.in_tds_section = false) :
    stepLine s l = s := by
  cases s with
  | mk tds summ =>
    simp only at hs
    subst hs
    simp only [stepLine, hI, if_neg Bool.false_ne_true]
    cases hII : hasPartII (pyStrip l.data) <;> simp [hII]

theorem foldl_stepLine_no_marker (lines : List String) :
    ∀ s : ParseState, s.in_tds_section = false →
    (∀ l ∈ lines, hasPartI (pyStrip l.data) = false) →
    lines.foldl stepLine s = s := by
  induction lines with
  | nil => intro s _ _; rfl
  | cons l t ih =>
    intro s hs hl
    simp only [List.foldl_cons]
    rw [stepLine_not_relevant s l (hl l (List.mem_cons_self l t)) hs]
    exact ih s hs (fun x hx => hl x (List.mem_cons_of_mem l hx))

theorem summary_ite (c : Prop) [Decidable c] (a b : Bool) (m : SectionSummary) :
    (if c then ParseState.mk a m else ParseState.mk b m).summary = m := by
  split <;> rfl

theorem stepLine_summary_of_extract_none (s : ParseState) (line : String)
    (h : extractFromLine (pyStrip line.data) = none) :
    (stepLine s line).summary = s.summary := by
  simp only [stepLine, h, applyRecord]
  exact summary_ite _ _ _ _

/-- Claim C1 (counterexample): with no part-boundary marker anywhere in
the input, a well-formed data line (serial number, section code, three
monetary tokens) yields nothing — the claimed default-to-relevant
behaviour does not exist, so the summary has no entry for 194A. -/
theorem claim1_counterexample :
    parseLines [ "1  194A  50000.00  5000.00  5000.00"] "194A" = none := by decide

/-- Claim C1 (amended): if no line of the input matches the PART-I or
PART-II marker patterns, `in_tds_section` stays false, every data line is
dropped, and the section summary is empty. -/
theorem claim1 (lines : List String)
    (h : ∀ l ∈ lines, hasPartI (pyStrip l.data) = false ∧ hasPartII (pyStrip l.data) = false) :
    parseLines lines = emptySectionSummary := by
  unfold parseLines
  rw [foldl_stepLine_no_marker lines initState rfl (fun l hl => (h l hl).1)]
  rfl

/-- Claim C1 witness: the amended theorem applied to a one-line document
holding a well-formed data line and no part markers. -/
theorem claim1_witness :
    parseLines [ "1  194A  50000.00  5000.00  5000.00"] = emptySectionSummary :=
  claim1 [ "1  194A  50000.00  5000.00  5000.00"] (by decide)

/-- Claim C2 (counterexample): on the spec's exact four-line scenario the
parser aggregates nothing at all — the data lines lack the leading
serial-number column `^(\d+)\s+` that the data-row pattern demands, so
the claimed entry for 194A does not exist. -/
theorem claim2_counterexample :
    parseLines [ "PART I", "194A  50000.00  5000.00  5000.00", "PART II",
      "194C  10000.00  1000.00  1000.00"] "194A" = none := by decide

/-- Claim C2 (amended): with the serial-number column the pattern
requires prepended to each data row, exactly one row is aggregated: the
summary maps 194A to 50000.00 paid (5000000 paise), 5000.00 deposited
(500000 paise) and one transaction, and has no other entry (in
particular none for 194C, whose row falls after PART II). -/
theorem claim2 :
    parseLines [ "PART I", "1  194A  50000.00  5000.00  5000.00", "PART II",
      "1  194C  10000.00  1000.00  1000.00"] =
      addRecord emptySectionSummary ⟨ "194A", 5000000, 500000⟩ := rfl

/-- Claim C4: a matched data line whose `amounts[-3]` (amount paid) or
`amounts[-1]` (tax deposited) parses to a negative value contributes no
record — the summary is unchanged by that line; in particular a line
with amount paid -100.00 contributes nothing whether its tax deposited
is positive or negative. -/
theorem claim4 :
    (∀ (s : ParseState) (line : String) (r t : Int),
      3 ≤ (findAmounts (pyStrip line.data)).length →
      parsePaise ((findAmounts (pyStrip line.data)).getD
        ((findAmounts (pyStrip line.data)).length - 3) []) = some r →
      parsePaise ((findAmounts (pyStrip line.data)).getD
        ((findAmounts (pyStrip line.data)).length - 1) []) = some t →
      r < 0 ∨ t < 0 →
      (stepLine s line).summary = s.summary) ∧
    parseLines [ "PART I", "1  194A  -100.00  10.00  10.00"] = emptySectionSummary ∧
    parseLines [ "PART I", "1  194A  -100.00  10.00  -10.00"] = emptySectionSummary := by
  refine ⟨fun s line r t h3 hr ht hneg => ?_, rfl, rfl⟩
  apply stepLine_summary_of_extract_none
  unfold extractFromLine
  cases hm : matchDataRow (pyStrip line.data) with
  | none => rfl
  | some secRaw =>
    dsimp only
    unfold recFromAmounts
    rw [if_pos h3, hr, ht]
    dsimp only
    rw [if_pos hneg]

/-- Claim C4 witness: the per-line part of the theorem applied to a
concrete line with amount paid -100.00. -/
theorem claim4_witness :
    (stepLine ⟨true, emptySectionSummary⟩ "1  194A  -100.00  10.00  10.00").summary =
      (ParseState.mk true emptySectionSummary).summary :=
  claim4.1 ⟨true, emptySectionSummary⟩ "1  194A  -100.00  10.00  10.00" (-10000) 1000
    (by decide) (by decide) (by decide) (Or.inl (by decide))

/-- Claim C5 (counterexample): a line whose second-from-last monetary
token (tax deducted) is negative but whose amount paid and tax deposited
are non-negative IS aggregated — it creates a summary entry with one
transaction — refuting the claim that a record with any negative amount
is discarded. -/
theorem claim5_counterexample :
    parseLines [ "PART I", "1  194A  100.00  -10.00  10.00"] "194A" =
      some ⟨10000, 1000, 1⟩ := by decide

/-- Records built by `recFromAmounts` always carry non-negative
amounts: the negativity test of `src/app.py` line 172 guards the only
`some` branch. -/
theorem recFromAmounts_nonneg (sec : String) (amounts : List (List Char)) (r : TdsRecord)
    (h : recFromAmounts sec amounts = some r) : 0 ≤ r.receipt ∧ 0 ≤ r.tds := by
  unfold recFromAmounts at h
  by_cases h3 : 3 ≤ amounts.length
  · rw [if_pos h3] at h
    rcases hp : parsePaise (amounts.getD (amounts.length - 3) []) with _ | rv <;>
      rw [hp] at h
    · simp at h
    · rcases hq : parsePaise (amounts.getD (amounts.length - 1) []) with _ | tv <;>
        rw [hq] at h
      · simp at h
      · dsimp only at h
        by_cases hneg : rv < 0 ∨ tv < 0
        · rw [if_pos hneg] at h; cases h
        · rw [if_neg hneg] at h
          cases h
          push_neg at hneg
          exact ⟨hneg.1, hneg.2⟩
  · rw [if_neg h3] at h; cases h

/-- Claim C5 (amended): every extracted record has its two extracted
amounts — `receipt_amount` (`amounts[-3]`) and `tds_amount`
(`amounts[-1]`) — non-negative; the second-from-last monetary token (tax
deducted) is never extracted or checked, so its sign cannot cause a
discard. -/
theorem claim5 (line : List Char) (r : TdsRecord)
    (h : extractFromLine line = some r) : 0 ≤ r.receipt ∧ 0 ≤ r.tds := by
  unfold extractFromLine at h
  rcases hm : matchDataRow line with _ | secRaw <;> rw [hm] at h
  · cases h
  · exact recFromAmounts_nonneg _ _ _ h

/-- Claim C5 witness: the amended theorem applied to a concrete accepted
line. -/
theorem claim5_witness :
    extractFromLine ( "1  194A  50000.00  5000.00  5000.00".data) =
      some ⟨ "194A", 5000000, 500000⟩ ∧
    0 ≤ (5000000 : Int) ∧ 0 ≤ (500000 : Int) :=
  ⟨by decide, claim5 ( "1  194A  50000.00  5000.00  5000.00".data)
    ⟨ "194A", 5000000, 500000⟩ (by decide)⟩

/-- Claim C6 (counterexample): `normalize_section` is not idempotent —
re-normalizing the output of `normalize_section "194IA"` changes it
(the second pass upper-cases `194I(a)` to `194I(A)`, which no rewrite
rule maps back). -/
theorem claim6_counterexample :
    normalize_section (normalize_section "194IA") ≠ normalize_section "194IA" := by decide

/-- Claim C6 (amended): `normalize_section` is total (a pure function
defined on every string), but idempotence fails: `"194IA"` normalizes to
`"194I(a)"`, while normalizing that result gives `"194I(A)"`. -/
theorem claim6 :
    (∀ x : String, ∃ y, normalize_section x = y) ∧
    normalize_section "194IA" = "194I(a)" ∧
    normalize_section (normalize_section "194IA") = "194I(A)" :=
  ⟨fun x => ⟨normalize_section x, rfl⟩, by decide, by decide⟩

/-- Claim C3: a line yielding fewer than three monetary tokens gives no
record; with three or more, only the trailing three determine the record
(all earlier tokens are ignored); on the concrete line
`1  20000.00  19500.00  1950.00  1950.00` the monetary tokens are
20000.00, 19500.00, 1950.00, 1950.00 (the bare `1` is a serial, not a
monetary token), and the extracted record takes amount paid 19500.00
(1950000 paise, `amounts[-3]`) and tax deposited 1950.00 (195000 paise,
`amounts[-1]`), with `amounts[-2]` = 1950.00 in the tax-deducted
position. -/
theorem claim3 :
    (∀ (sec : String) (amounts : List (List Char)), amounts.length < 3 →
      recFromAmounts sec amounts = none) ∧
    (∀ (sec : String) (extra amounts : List (List Char)), 3 ≤ amounts.length →
      recFromAmounts sec (extra ++ amounts) = recFromAmounts sec amounts) ∧
    findAmounts ( "1  20000.00  19500.00  1950.00  1950.00".data) =
      [ "20000.00".data, "19500.00".data, "1950.00".data, "1950.00".data] ∧
    parseLines [ "PART I", "1  20000.00  19500.00  1950.00  1950.00"] =
      addRecord emptySectionSummary ⟨ "", 1950000, 195000⟩ := by
  refine ⟨?_, ?_, by decide, rfl⟩
  · intro sec amounts h
    unfold recFromAmounts
    rw [if_neg (by omega)]
  · intro sec extra amounts h3
    unfold recFromAmounts
    have e1 : (extra ++ amounts).getD ((extra ++ amounts).length - 3) [] =
        amounts.getD (amounts.length - 3) [] := by
      rw [List.length_append, List.getD_append_right extra amounts [] _ (by omega)]
      congr 1
      omega
    have e2 : (extra ++ amounts).getD ((extra ++ amounts).length - 1) [] =
        amounts.getD (amounts.length - 1) [] := by
      rw [List.length_append, List.getD_append_right extra amounts [] _ (by omega)]
      congr 1
      omega
    rw [e1, e2, List.length_append,
      if_pos (show 3 ≤ extra.length + amounts.length by omega), if_pos h3]

/-- Claim C3 witness: the two universally quantified parts applied to
concrete token lists — a two-token list yields no record, and a leading
extra token does not change the extraction from a three-token list. -/
theorem claim3_witness :
    recFromAmounts "194A" [ "1.00".data, "2.00".data] = none ∧
    recFromAmounts "194A" ( [ "9.99".data] ++
        [ "1.00".data, "2.00".data, "3.00".data]) =
      recFromAmounts "194A" [ "1.00".data, "2.00".data, "3.00".data] :=
  ⟨claim3.1 "194A" [ "1.00".data, "2.00".data] (by decide),
   claim3.2.1 "194A" [ "9.99".data] [ "1.00".data, "2.00".data, "3.00".data] (by decide)⟩

/-- Claim C8: a monetary token that fails to parse as a decimal (the
`ValueError` path, `src/app.py` lines 188-189) makes the line contribute
nothing — the summary is returned unchanged for that line's token list —
and the fold continues with the remaining lines rather than aborting. -/
theorem claim8 :
    (∀ (summary : SectionSummary) (sec : String) (amounts : List (List Char)),
      (parsePaise (amounts.getD (amounts.length - 3) []) = none ∨
       parsePaise (amounts.getD (amounts.length - 1) []) = none) →
      applyRecord summary (recFromAmounts sec amounts) = summary) ∧
    (∀ (s : ParseState) (l : String) (rest : List String),
      List.foldl stepLine s (l :: rest) = List.foldl stepLine (stepLine s l) rest) := by
  refine ⟨?_, fun s l rest => rfl⟩
  intro summary sec amounts h
  have hnone : recFromAmounts sec amounts = none := by
    unfold recFromAmounts
    by_cases h3 : 3 ≤ amounts.length
    · rw [if_pos h3]
      rcases hp : parsePaise (amounts.getD (amounts.length - 3) []) with _ | rv
      · rfl
      · rcases hq : parsePaise (amounts.getD (amounts.length - 1) []) with _ | tv
        · rfl
        · exfalso
          rcases h with h | h
          · rw [hp] at h; cases h
          · rw [hq] at h; cases h
    · rw [if_neg h3]
  rw [hnone]
  rfl

/-- Claim C8 witness: the token-list part applied to a list whose
third-from-last token is not a decimal. -/
theorem claim8_witness :
    applyRecord emptySectionSummary (recFromAmounts "194A"
      [ "oops".data, "1.00".data, "2.00".data]) = emptySectionSummary :=
  claim8.1 emptySectionSummary "194A" [ "oops".data, "1.00".data, "2.00".data]
    (Or.inl (by decide))

theorem any_perm {α : Type} (p : α → Bool) {l1 l2 : List α} (h : l1.Perm l2) :
    l1.any p = l2.any p := by
  cases h1 : l1.any p with
  | true =>
    symm
    rw [List.any_eq_true] at h1 ⊢
    obtain ⟨x, hx, hp⟩ := h1
    exact ⟨x, h.mem_iff.mp hx, hp⟩
  | false =>
    symm
    rw [List.any_eq_false] at h1 ⊢
    intro x hx
    exact h1 x (h.mem_iff.mpr hx)

theorem foldl_addRecordFP_view (l : List TdsRecordFP) :
    ∀ (m : SectionSummaryFP) (k : String),
    ((l.foldl addRecordFP m) k).isSome = ((m k).isSome || l.any (fun r => r.sec == k)) ∧
    optCountFP ((l.foldl addRecordFP m) k) =
      optCountFP (m k) + l.countP (fun r => r.sec == k) := by
  induction l with
  | nil => intro m k; simp
  | cons r t ih =>
    intro m k
    simp only [List.foldl_cons, List.any_cons, List.countP_cons]
    obtain ⟨ih1, ih2⟩ := ih (addRecordFP m r) k
    rw [ih1, ih2]
    have hsome : ((addRecordFP m r) k).isSome = ((m k).isSome || (r.sec == k)) := by
      by_cases hk : k = r.sec
      · subst hk; simp [addRecordFP]
      · have hbeq : (r.sec == k) = false := by
          simp only [beq_eq_false_iff_ne, ne_eq]
          exact fun hh => hk hh.symm
        simp [addRecordFP, hk, hbeq]
    have hcnt : optCountFP ((addRecordFP m r) k) =
        optCountFP (m k) + (if (r.sec == k) = true then 1 else 0) := by
      by_cases hk : k = r.sec
      · subst hk
        cases hv : m r.sec <;> simp [addRecordFP, bumpStatsFP, optCountFP, hv]
      · have hbeq : (r.sec == k) = false := by
          simp only [beq_eq_false_iff_ne, ne_eq]
          exact fun hh => hk hh.symm
        simp [addRecordFP, hk, hbeq]
    rw [hsome, hcnt]
    constructor
    · rw [Bool.or_assoc]
    · omega

/-- Claim C9 (counterexample): aggregation of the program's binary64
floats is NOT order-independent.  Three accepted records in one section
with amounts 9007199254740992.00 (exactly `2 ^ 53`), 1.00 and 1.00: the
order `[2 ^ 53; 1; 1]` accumulates to `2 ^ 53` (each `+ 1.00` is a tie
rounded to even, erasing the increment), while the permuted order
`[1; 1; 2 ^ 53]` accumulates to `2 ^ 53 + 2` — the two summaries differ
at the key although the record lists are permutations of one another. -/
theorem claim9_counterexample :
    List.Perm
      [(⟨ "194A", ⟨1, 53⟩, fzero⟩ : TdsRecordFP), ⟨ "194A", ⟨1, 0⟩, fzero⟩,
        ⟨ "194A", ⟨1, 0⟩, fzero⟩]
      [⟨ "194A", ⟨1, 0⟩, fzero⟩, ⟨ "194A", ⟨1, 0⟩, fzero⟩,
        ⟨ "194A", ⟨1, 53⟩, fzero⟩] ∧
    aggregateRecordsFP [⟨ "194A", ⟨1, 53⟩, fzero⟩, ⟨ "194A", ⟨1, 0⟩, fzero⟩,
        ⟨ "194A", ⟨1, 0⟩, fzero⟩] "194A" ≠
      aggregateRecordsFP [⟨ "194A", ⟨1, 0⟩, fzero⟩, ⟨ "194A", ⟨1, 0⟩, fzero⟩,
        ⟨ "194A", ⟨1, 53⟩, fzero⟩] "194A" :=
  ⟨by decide, by decide⟩

/-- Claim C9 (amended): what order-independence the aggregation really
has.  Under the program's binary64 float accumulation, permuting the
accepted records preserves the set of section keys and every key's
transaction count, but not necessarily the float totals (binary64
addition is not associative); under the exact decimal reading of the
amounts — the spec's intended plain summation — permuting preserves the
whole summary. -/
theorem claim9 :
    (∀ (l1 l2 : List TdsRecordFP), l1.Perm l2 → ∀ k : String,
      ((aggregateRecordsFP l1) k).isSome = ((aggregateRecordsFP l2) k).isSome ∧
      optCountFP ((aggregateRecordsFP l1) k) = optCountFP ((aggregateRecordsFP l2) k)) ∧
    (∀ (l1 l2 : List TdsRecord), l1.Perm l2 → aggregateRecords l1 = aggregateRecords l2) := by
  constructor
  · intro l1 l2 h k
    obtain ⟨a1, c1⟩ := foldl_addRecordFP_view l1 emptySectionSummaryFP k
    obtain ⟨a2, c2⟩ := foldl_addRecordFP_view l2 emptySectionSummaryFP k
    unfold aggregateRecordsFP
    rw [a1, a2, c1, c2, h.countP_eq, any_perm _ h]
    exact ⟨rfl, rfl⟩
  · intro l1 l2 h
    exact foldl_addRecord_perm h emptySectionSummary

/-- Claim C9 witness: the float part applied to the permuted
three-record lists (key presence and transaction count agree even where
the totals differ), and the exact part applied to a two-record swap. -/
theorem claim9_witness :
    (((aggregateRecordsFP [(⟨ "194A", ⟨1, 53⟩, fzero⟩ : TdsRecordFP),
        ⟨ "194A", ⟨1, 0⟩, fzero⟩, ⟨ "194A", ⟨1, 0⟩, fzero⟩]) "194A").isSome =
      ((aggregateRecordsFP [⟨ "194A", ⟨1, 0⟩, fzero⟩, ⟨ "194A", ⟨1, 0⟩, fzero⟩,
        ⟨ "194A", ⟨1, 53⟩, fzero⟩]) "194A").isSome) ∧
    (optCountFP ((aggregateRecordsFP [(⟨ "194A", ⟨1, 53⟩, fzero⟩ : TdsRecordFP),
        ⟨ "194A", ⟨1, 0⟩, fzero⟩, ⟨ "194A", ⟨1, 0⟩, fzero⟩]) "194A") =
      optCountFP ((aggregateRecordsFP [⟨ "194A", ⟨1, 0⟩, fzero⟩,
        ⟨ "194A", ⟨1, 0⟩, fzero⟩, ⟨ "194A", ⟨1, 53⟩, fzero⟩]) "194A")) ∧
    aggregateRecords [⟨ "194A", 10000, 1000⟩, ⟨ "194C", 20000, 2000⟩] =
      aggregateRecords [⟨ "194C", 20000, 2000⟩, ⟨ "194A", 10000, 1000⟩] :=
  ⟨(claim9.1 [⟨ "194A", ⟨1, 53⟩, fzero⟩, ⟨ "194A", ⟨1, 0⟩, fzero⟩,
      ⟨ "194A", ⟨1, 0⟩, fzero⟩]
    [⟨ "194A", ⟨1, 0⟩, fzero⟩, ⟨ "194A", ⟨1, 0⟩, fzero⟩, ⟨ "194A", ⟨1, 53⟩, fzero⟩]
    (by decide) "194A").1,
   (claim9.1 [⟨ "194A", ⟨1, 53⟩, fzero⟩, ⟨ "194A", ⟨1, 0⟩, fzero⟩,
      ⟨ "194A", ⟨1, 0⟩, fzero⟩]
    [⟨ "194A", ⟨1, 0⟩, fzero⟩, ⟨ "194A", ⟨1, 0⟩, fzero⟩, ⟨ "194A", ⟨1, 53⟩, fzero⟩]
    (by decide) "194A").2,
   claim9.2 _ _ (List.Perm.swap _ _ _)⟩

/-- Claim C7: the modelled `parse_document` result carries both
summaries; its party summary is keyed by the `(party_name, tan)` pair —
every record's key owns a bucket (no record is dropped) — and records
with neither party name nor TAN all land in the single `(none, none)`
unattributed bucket. -/
theorem claim7 :
    (∀ (recs : List PartyRecord) (r : PartyRecord), r ∈ recs →
      (((parse_document_summaries recs).2) (r.party, r.tan)).isSome = true) ∧
    (∀ (recs : List PartyRecord) (r : PartyRecord), r ∈ recs →
      r.party = none → r.tan = none →
      (((parse_document_summaries recs).2) (none, none)).isSome = true) := by
  constructor
  · intro recs r hr
    exact mem_foldl_addPartyRec recs emptyPartySummary r hr
  · intro recs r hr hp ht
    have h := mem_foldl_addPartyRec recs emptyPartySummary r hr
    rw [hp, ht] at h
    exact h

/-- Claim C7 witness: a single record with neither party name nor TAN
lands in the unattributed bucket. -/
theorem claim7_witness :
    ((parse_document_summaries [⟨ "194A", none, none, 10000, 1000, 1000⟩]).2
      (none, none)).isSome = true :=
  claim7.2 [⟨ "194A", none, none, 10000, 1000, 1000⟩]
    ⟨ "194A", none, none, 10000, 1000, 1000⟩ (by simp) rfl rfl

theorem space_not_digit (c : Char) (h : isSpaceChar c = true) : c.isDigit = false := by
  unfold isSpaceChar at h
  simp [Char.isWhitespace] at h
  rcases h with ((h | h) | h) | h <;> subst h <;> decide

/-- Claim C10: inside the relevant part, a line that begins with a digit
run followed by at least two whitespace characters, carries no section
code token after the whitespace (no nonempty alternative of the section
group matches there), and whose monetary tokens number at least three
and all parse to non-negative values, is accepted through the *empty*
alternative of the section group and aggregated under the empty-string
section code. -/
theorem claim10 (s : ParseState) (raw : String) (d w rest : List Char)
    (hs : s.in_tds_section = true)
    (hdata : raw.data = d ++ w ++ rest)
    (hstrip : pyStrip raw.data = raw.data)
    (hd : d ≠ [])
    (hdd : ∀ c ∈ d, c.isDigit = true)
    (hw2 : 2 ≤ w.length)
    (hws : ∀ c ∈ w, isSpaceChar c = true)
    (hrest : ∀ c, rest.head? = some c → isSpaceChar c = false)
    (hsec : matchSectionFollowedByWs rest = none)
    (hII : hasPartII raw.data = false)
    (h3 : 3 ≤ (findAmounts raw.data).length)
    (ham : ∀ a ∈ findAmounts raw.data,
      (parsePaise a).isSome = true ∧ 0 ≤ (parsePaise a).getD 0) :
    ∃ r t : Int,
      parsePaise ((findAmounts raw.data).getD ((findAmounts raw.data).length - 3) []) = some r ∧
      parsePaise ((findAmounts raw.data).getD ((findAmounts raw.data).length - 1) []) = some t ∧
      0 ≤ r ∧ 0 ≤ t ∧
      stepLine s raw = ⟨true, addRecord s.summary ⟨ "", r, t⟩⟩ := by
  have hm3 : (findAmounts raw.data).getD ((findAmounts raw.data).length - 3) [] ∈
      findAmounts raw.data := by
    rw [List.getD_eq_getElem (findAmounts raw.data) [] (by omega)]
    exact List.getElem_mem _
  have hm1 : (findAmounts raw.data).getD ((findAmounts raw.data).length - 1) [] ∈
      findAmounts raw.data := by
    rw [List.getD_eq_getElem (findAmounts raw.data) [] (by omega)]
    exact List.getElem_mem _
  obtain ⟨hr_some, hr_nn⟩ := ham _ hm3
  obtain ⟨r, hr⟩ := Option.isSome_iff_exists.mp hr_some
  have hr0 : 0 ≤ r := by rw [hr] at hr_nn; simpa using hr_nn
  obtain ⟨ht_some, ht_nn⟩ := ham _ hm1
  obtain ⟨t, ht⟩ := Option.isSome_iff_exists.mp ht_some
  have ht0 : 0 ≤ t := by rw [ht] at ht_nn; simpa using ht_nn
  obtain ⟨w0, w', hw⟩ : ∃ w0 w', w = w0 :: w' := by
    cases w with
    | nil => simp at hw2
    | cons a b => exact ⟨a, b, rfl⟩
  have hspan1 : (d ++ (w ++ rest)).span Char.isDigit = (d, w ++ rest) := by
    apply span_pref
    · exact hdd
    · intro c hc
      rw [hw] at hc
      simp only [List.cons_append, List.head?_cons, Option.some.injEq] at hc
      rw [← hc]
      exact space_not_digit w0 (hws w0 (by rw [hw]; exact List.mem_cons_self _ _))
  have hspan2 : (w ++ rest).span isSpaceChar = (w, rest) := span_pref _ _ _ hws hrest
  have hwne : w ≠ [] := by rw [hw]; simp
  have hmd : matchDataRow raw.data = some [] := by
    rw [hdata]
    unfold matchDataRow
    rw [List.append_assoc, hspan1]
    dsimp only
    rw [if_neg hd, hspan2]
    dsimp only
    rw [if_neg hwne, hsec, if_pos hw2]
  have hext : extractFromLine raw.data = some ⟨ "", r, t⟩ := by
    unfold extractFromLine
    rw [hmd]
    dsimp only
    have hn : normalize_section (String.mk []) = "" := rfl
    rw [hn]
    unfold recFromAmounts
    rw [if_pos h3, hr, ht]
    dsimp only
    rw [if_neg (by omega : ¬(r < 0 ∨ t < 0))]
  have ht2 : (if hasPartII raw.data = true then false
      else if hasPartI raw.data = true then true else s.in_tds_section) = true := by
    rw [hII]
    simp [hs]
  refine ⟨r, t, hr, ht, hr0, ht0, ?_⟩
  unfold stepLine
  dsimp only
  rw [hstrip, ht2, if_pos rfl, hext]
  rfl

/-- Claim C10 witness: the theorem applied to the concrete line
`12  50000.00  5000.00  5000.00` — a serial, two spaces, and three
non-negative monetary tokens with no section code token — which is
aggregated under the empty-string section. -/
theorem claim10_witness :
    ∃ r t : Int,
      parsePaise ((findAmounts ( "12  50000.00  5000.00  5000.00".data)).getD
        ((findAmounts ( "12  50000.00  5000.00  5000.00".data)).length - 3) []) = some r ∧
      parsePaise ((findAmounts ( "12  50000.00  5000.00  5000.00".data)).getD
        ((findAmounts ( "12  50000.00  5000.00  5000.00".data)).length - 1) []) = some t ∧
      0 ≤ r ∧ 0 ≤ t ∧
      stepLine ⟨true, emptySectionSummary⟩ "12  50000.00  5000.00  5000.00" =
        ⟨true, addRecord emptySectionSummary ⟨ "", r, t⟩⟩ :=
  claim10 ⟨true, emptySectionSummary⟩ "12  50000.00  5000.00  5000.00"
    ( "12".data) ( "  ".data) ( "50000.00  5000.00  5000.00".data)
    rfl (by decide) (by decide) (by decide) (by decide) (by decide) (by decide)
    (by
      intro c hc
      have h5 : ( "50000.00  5000.00  5000.00".data).head? = some '5' := rfl
      rw [h5] at hc
      have hc5 : '5' = c := Option.some.inj hc
      rw [← hc5]
      decide)
    (by decide) (by decide) (by decide) (by decide)
